import Mathlib

/-!
Verification of the go-update repository's artefact abstraction and
version-resolution/update protocol, as a shallow embedding in Lean 4.

The embedding follows `src/artefact.go` (the `Artefact` interface, the
`binary` and `goToolchain` variants, `escapeModuleName`) and
`src/unnamed/part_002` (the orchestrator `Main` loop and the `install`
helper). External effects (HTTP responses, subprocess exit status,
filesystem contents) are passed in explicitly as values so that the pure
control flow of the source is preserved and provable.
-/

namespace GoUpdate

/- ===================== Go standard library models ===================== -/

/-- Split a rune list at every `/`, keeping empty segments, as
`strings.Split(s, "/")` does. -/
def splitSlash : List Char → List (List Char)
  | [] => [[]]
  | c :: cs =>
    if c = '/' then [] :: splitSlash cs
    else
      match splitSlash cs with
      | [] => [[c]]
      | seg :: rest => (c :: seg) :: rest

/-- Join segments with `/` between them, as `strings.Join(segs, "/")` does. -/
def joinSlash : List (List Char) → List Char
  | [] => []
  | [seg] => seg
  | seg :: rest => seg ++ '/' :: joinSlash rest

/-- Model of Go `path.Clean` (slash-separated paths): one step of the
lexical cleaning algorithm expressed over path components (segments as rune
lists, accumulated in reverse). Empty and `.` components are dropped, `..`
removes the preceding component (and is kept at the front of a relative
path, dropped at the root of an absolute one). -/
def cleanPush (rooted : Bool) (acc : List (List Char)) (c : List Char) :
    List (List Char) :=
  if c = [] ∨ c = ['.'] then acc
  else if c = ['.', '.'] then
    match acc with
    | [] => if rooted then [] else [['.', '.']]
    | top :: rest => if top = ['.', '.'] then ['.', '.'] :: top :: rest else rest
  else c :: acc

/-- Model of Go `path.Clean`. -/
def pathClean (p : String) : String :=
  if p = "" then "."
  else
    let rooted : Bool := p.data.head? == some '/'
    let out := ((splitSlash p.data).foldl (cleanPush rooted) []).reverse
    let joined := joinSlash out
    if rooted then String.mk ('/' :: joined)
    else if joined = [] then "." else String.mk joined

/-- Model of Go `path.Join` for two elements: skip leading empty elements,
join the rest with `/` and clean the result. -/
def pathJoin (a b : String) : String :=
  if a = "" then
    if b = "" then "" else pathClean b
  else pathClean (a ++ "/" ++ b)

/-- Model of Go `filepath.Join` on a unix system, where it agrees with
`path.Join` for two elements. -/
def filepathJoin (a b : String) : String := pathJoin a b

/-- Model of Go `path.Base`: strip trailing slashes, then return the last
component; `.` for the empty path, `/` for a path of only slashes. -/
def pathBase (p : String) : String :=
  if p = "" then "."
  else
    let r := p.data.reverse.dropWhile (fun c => c == '/')
    match r with
    | [] => "/"
    | _ => String.mk ((r.takeWhile (fun c => c != '/')).reverse)

/-- Model of Go's `<` on strings over the rune list: lexicographic
comparison (Go compares bytes; on the UTF-8 encoding byte order and
code-point order agree, so rune-wise comparison is equivalent). -/
def goStringLtList : List Char → List Char → Bool
  | [], [] => false
  | [], _ :: _ => true
  | _ :: _, [] => false
  | a :: as, b :: bs =>
    if a < b then true
    else if b < a then false
    else goStringLtList as bs

/-- Model of Go's `<` on strings. -/
def goStringLt (a b : String) : Bool := goStringLtList a.data b.data

/-- Model of `strings.SplitN(s, "\n", 2)[0]` over the character list: the
characters before the first newline (the whole list when it has none). -/
def firstLineList : List Char → List Char
  | [] => []
  | c :: cs => if c = '\n' then [] else c :: firstLineList cs

/-- Model of `strings.SplitN(s, "\n", 2)[0]`. -/
def firstLine (s : String) : String := String.mk (firstLineList s.data)

/- ===================== escapeModuleName (src/artefact.go) ===================== -/

/-- `escapeModuleName` from `src/artefact.go`, over the rune list: every
uppercase letter is written as `!` followed by its lowercase form, every
other rune is copied unchanged. Go's `unicode.IsUpper`/`unicode.ToLower`
are modelled by `Char.isUpper`/`Char.toLower`, with which they agree on
the ASCII range. -/
def escapeList : List Char → List Char
  | [] => []
  | c :: cs =>
    if c.isUpper then '!' :: c.toLower :: escapeList cs
    else c :: escapeList cs

/-- `escapeModuleName` from `src/artefact.go`. -/
def escapeModuleName (s : String) : String := String.mk (escapeList s.data)

/-- Modelled from the spec: the repository has no unescape function; the
module-proxy unescaping inverse to the escaping rule (spec §4.1: "every
uppercase letter in the module path is replaced by `!` followed by its
lowercase form") maps `!` followed by a letter back to that letter's
uppercase form and copies every other rune. -/
def unescapeList : List Char → List Char
  | [] => []
  | c :: cs =>
    if c = '!' then
      match cs with
      | [] => []
      | d :: ds => d.toUpper :: unescapeList ds
    else c :: unescapeList cs

/-- Modelled from the spec: string form of `unescapeList`. -/
def unescapeModuleName (s : String) : String := String.mk (unescapeList s.data)

/- ===================== Data model (src/artefact.go) ===================== -/

/-- The fields of `runtime/debug.BuildInfo` that the repository reads:
`Main.Path`, `Main.Version`, `Path` (the main package install path) and
`GoVersion`. Build settings are not consulted by the code under
verification. -/
structure BuildInfo where
  mainPath : String
  mainVersion : String
  path : String
  goVersion : String
deriving DecidableEq

/-- The JSON body the proxy's `@latest` endpoint decodes into in `newBinary`
(`Version` plus a timestamp; the timestamp is never read, so it is dropped
here). -/
structure VersionInfo where
  version : String
deriving DecidableEq

/-- An HTTP response from the module proxy as `newBinary` consumes it:
status code, status line, raw body bytes, and the result the JSON decoder
yields for the body (`none` models a decode failure). -/
structure ProxyResponse where
  statusCode : Nat
  status : String
  body : List UInt8
  decoded : Option VersionInfo
deriving DecidableEq

/-- The errors artefact construction can produce, one constructor per
`return nil, err` site of `NewArtefact`, `newBinary` and `newGoToolchain`:
nil build info, transport failure of the HTTP GET, a non-OK proxy status
(carrying the status line and the error message read from the body through
`io.LimitReader(res.Body, 512)`), a JSON decode failure, and a main module
path that is not the toolchain sentinel. -/
inductive ArtefactErr
  | nilBuildInfo
  | transportFailed
  | badStatus (status : String) (errMsg : List UInt8)
  | decodeFailed
  | notGoToolchain
deriving DecidableEq

/-- The `binary` struct of `src/artefact.go`: the build info plus the
resolved target version. -/
structure Binary where
  buildInfo : BuildInfo
  targetVersion : String
deriving DecidableEq

/-- `newBinary` from `src/artefact.go`. The HTTP GET's outcome is passed in:
`Except.error` models `client.Get` returning an error, `Except.ok` carries
the response. A status other than 200 OK is rejected with the body capped
at 512 bytes; a decode failure is rejected; otherwise the decoded `Version`
becomes the target version. -/
def newBinary (bi : BuildInfo) (res : Except Unit ProxyResponse) :
    Except ArtefactErr Binary :=
  match res with
  | .error _ => .error .transportFailed
  | .ok r =>
    if r.statusCode ≠ 200 then .error (.badStatus r.status (r.body.take 512))
    else
      match r.decoded with
      | none => .error .decodeFailed
      | some v => .ok { buildInfo := bi, targetVersion := v.version }

/-- `(*binary).ModulePath`. -/
def Binary.modulePath (b : Binary) : String := b.buildInfo.mainPath

/-- `(*binary).InstallPath`. -/
def Binary.installPath (b : Binary) : String := b.buildInfo.path

/-- `(*binary).InstalledVersion`. -/
def Binary.installedVersion (b : Binary) : String := b.buildInfo.mainVersion

/-- `(*binary).NeedsUpdate`: `b.targetVersion != b.InstalledVersion()`. -/
def Binary.needsUpdate (b : Binary) : Bool :=
  b.targetVersion != b.installedVersion

/-- The `goToolchain` struct of `src/artefact.go` (its `executablePath`
field is never assigned or read and is dropped here). -/
structure GoToolchain where
  installedVersion : String
  targetVersion : String
deriving DecidableEq

/-- `(*goToolchain).ModulePath`: the fixed sentinel module. -/
def goToolchainModulePath : String := "golang.org/dl"

/-- `newGoToolchain` from `src/artefact.go`. The GET of the
`go.dev/VERSION?m=text` endpoint is passed in as `fetch` (`Except.ok` is
the body read from the response). The installed version is the base name
of `bi.Path`; the target version is the first line of the body
(`strings.SplitN(body, "\n", 2)[0]`). -/
def newGoToolchain (bi : BuildInfo) (fetch : Except Unit String) :
    Except ArtefactErr GoToolchain :=
  if bi.mainPath ≠ goToolchainModulePath then .error .notGoToolchain
  else
    match fetch with
    | .error _ => .error .transportFailed
    | .ok body =>
      .ok { installedVersion := pathBase bi.path, targetVersion := firstLine body }

/-- `(*goToolchain).InstallPath`: `path.Join(b.ModulePath(), b.targetVersion)`. -/
def GoToolchain.installPath (t : GoToolchain) : String :=
  pathJoin goToolchainModulePath t.targetVersion

/-- `(*goToolchain).NeedsUpdate`: `b.TargetVersion() != b.InstalledVersion()`. -/
def GoToolchain.needsUpdate (t : GoToolchain) : Bool :=
  t.targetVersion != t.installedVersion

/-- The two `Artefact` implementations behind the interface, as a closed sum. -/
inductive ArtefactV
  | bin (b : Binary)
  | toolchain (t : GoToolchain)
deriving DecidableEq

/-- `NewArtefact` from `src/artefact.go`: reject a nil `*debug.BuildInfo`,
then dispatch on `bi.Main.Path == "golang.org/dl"`. The network outcomes
both branches may consume are passed in. -/
def NewArtefact (bi : Option BuildInfo) (tf : Except Unit String)
    (pr : Except Unit ProxyResponse) : Except ArtefactErr ArtefactV :=
  match bi with
  | none => .error .nilBuildInfo
  | some b =>
    if b.mainPath = goToolchainModulePath then
      (newGoToolchain b tf).map ArtefactV.toolchain
    else
      (newBinary b pr).map ArtefactV.bin

/-- Interface dispatch of `NeedsUpdate`. -/
def ArtefactV.needsUpdate : ArtefactV → Bool
  | .bin b => b.needsUpdate
  | .toolchain t => t.needsUpdate

/-- Interface dispatch of `InstalledVersion`. -/
def ArtefactV.installedVersion : ArtefactV → String
  | .bin b => b.installedVersion
  | .toolchain t => t.installedVersion

/-- Interface dispatch of `TargetVersion`. -/
def ArtefactV.targetVersion : ArtefactV → String
  | .bin b => b.targetVersion
  | .toolchain t => t.targetVersion

/-- Interface dispatch of `InstallPath`. -/
def ArtefactV.installPath : ArtefactV → String
  | .bin b => b.installPath
  | .toolchain t => t.installPath

/- ============== Toolchain Update() protocol (src/artefact.go) ============== -/

/-- An entry of the install-bin directory: a regular file or a symlink with
its target. -/
inductive FsEntry
  | file
  | symlink (target : String)
deriving DecidableEq

/-- The install-bin directory's contents, as an association of full paths to
entries. -/
abbrev Fs := List (String × FsEntry)

/-- The two ways `os.Remove` can fail: the path does not exist
(`os.ErrNotExist`), or another I/O error. -/
inductive RemoveErr
  | notExist
  | ioErr
deriving DecidableEq

/-- Model of `os.Remove`: an injected I/O fault reports `ioErr`; removing a
present entry succeeds and deletes it; removing an absent path reports
`notExist` and leaves the filesystem unchanged. -/
def osRemove (fs : Fs) (p : String) (ioFault : Bool) : Option RemoveErr × Fs :=
  if ioFault then (some .ioErr, fs)
  else if (fs.lookup p).isSome then (none, fs.eraseP (fun e => e.1 == p))
  else (some .notExist, fs)

/-- Model of `os.Symlink target linkName`: an injected I/O fault fails, an
existing `linkName` fails (EEXIST), otherwise the symlink entry is created. -/
def osSymlink (fs : Fs) (target linkName : String) (ioFault : Bool) :
    Option Unit × Fs :=
  if ioFault then (some (), fs)
  else if (fs.lookup linkName).isSome then (some (), fs)
  else (none, (linkName, FsEntry.symlink target) :: fs)

/-- Outcomes of the external effects `(*goToolchain).Update` performs, one
oracle per call site: the `go install` subprocess, the
`exec.Command(targetVersion, "download")` subprocess, an I/O fault other
than not-exists for each of the two `os.Remove` calls, and an I/O fault for
`os.Symlink`. -/
structure UpdEnv where
  installOk : Bool
  downloadOk : Bool
  removeOldFault : Bool
  removeAliasFault : Bool
  symlinkFault : Bool
deriving DecidableEq

/-- The externally visible actions of `(*goToolchain).Update`, in the order
the code attempts them. -/
inductive UStep
  | install (pkg version : String)
  | download (cmd : String)
  | removeFile (p : String)
  | symlink (target linkName : String)
deriving DecidableEq

/-- The error `(*goToolchain).Update` returns, by failing step. -/
inductive UErr
  | installFailed
  | downloadFailed
  | removeFailed (p : String)
  | symlinkFailed
deriving DecidableEq

/-- What a run of `(*goToolchain).Update` produces: the returned error (if
any), the final install-bin directory contents, and the trace of attempted
steps. -/
structure UpdResult where
  err : Option UErr
  fs : Fs
  trace : List UStep
deriving DecidableEq

/-- `(*goToolchain).Update` from `src/artefact.go`, line for line:
1. `install(b.InstallPath(), "latest")`;
2. `exec.Command(b.TargetVersion(), "download").Run()`;
3. `os.Remove(filepath.Join(goBin, b.installedVersion))`, tolerating
   `os.ErrNotExist`;
4. `os.Remove(filepath.Join(goBin, "go"))`, tolerating `os.ErrNotExist`;
5. `os.Symlink(filepath.Join(goBin, b.targetVersion), filepath.Join(goBin, "go"))`.
Each failing step returns its error, skipping the remaining steps. -/
def GoToolchain.update (t : GoToolchain) (goBin : String) (env : UpdEnv)
    (fs : Fs) : UpdResult :=
  let tr := [UStep.install t.installPath "latest"]
  if !env.installOk then { err := some .installFailed, fs := fs, trace := tr }
  else
    let tr := tr ++ [UStep.download t.targetVersion]
    if !env.downloadOk then { err := some .downloadFailed, fs := fs, trace := tr }
    else
      let oldPath := filepathJoin goBin t.installedVersion
      let tr := tr ++ [UStep.removeFile oldPath]
      let r3 := osRemove fs oldPath env.removeOldFault
      if r3.1 = some RemoveErr.ioErr then
        { err := some (.removeFailed oldPath), fs := r3.2, trace := tr }
      else
        let aliasPath := filepathJoin goBin "go"
        let tr := tr ++ [UStep.removeFile aliasPath]
        let r4 := osRemove r3.2 aliasPath env.removeAliasFault
        if r4.1 = some RemoveErr.ioErr then
          { err := some (.removeFailed aliasPath), fs := r4.2, trace := tr }
        else
          let newPath := filepathJoin goBin t.targetVersion
          let tr := tr ++ [UStep.symlink newPath aliasPath]
          let r5 := osSymlink r4.2 newPath aliasPath env.symlinkFault
          if r5.1.isSome then
            { err := some .symlinkFailed, fs := r5.2, trace := tr }
          else
            { err := none, fs := r5.2, trace := tr }

/-- The full five-step trace of `(*goToolchain).Update` when nothing fails. -/
def updateSteps (t : GoToolchain) (goBin : String) : List UStep :=
  [UStep.install t.installPath "latest",
   UStep.download t.targetVersion,
   UStep.removeFile (filepathJoin goBin t.installedVersion),
   UStep.removeFile (filepathJoin goBin "go"),
   UStep.symlink (filepathJoin goBin t.targetVersion) (filepathJoin goBin "go")]

/- ============== Installer (src/unnamed/part_002, install) ============== -/

/-- `slog.LevelDebug`. -/
def slogLevelDebug : Int := -4

/-- `slog.LevelInfo`. -/
def slogLevelInfo : Int := 0

/-- `slog.LevelWarn`. -/
def slogLevelWarn : Int := 4

/-- `slog.LevelError`. -/
def slogLevelError : Int := 8

/-- The log level `init` configures when the `LOG` environment variable is
unset: `logLevel.Set(slog.LevelError)`. -/
def defaultLogLevel : Int := slogLevelError

/-- The argument vector `install` (src/unnamed/part_002) builds for the
external `go install` invocation: `-v` is appended when the configured
level is at most Info, `-x` when it is at most Debug, then `pkg@version`. -/
def installArgs (level : Int) (pkg version : String) : List String :=
  let args := ["go", "install"]
  let args := if level ≤ slogLevelInfo then args ++ ["-v"] else args
  let args := if level ≤ slogLevelDebug then args ++ ["-x"] else args
  args ++ [pkg ++ "@" ++ version]

/- ============== Update orchestrator (src/unnamed/part_002, Main) ============== -/

/-- `executable` from src/unnamed/part_002: `mode&0111 != 0`. -/
def executable (mode : Nat) : Bool := mode &&& 0o111 != 0

/-- The per-candidate observable events of the `Main` loop: each `continue`
site's log call, the `Update()` invocation, and its outcome. -/
inductive Event
  | skipDir (name : String)
  | infoFailed (name : String)
  | skipNonExecutable (name : String)
  | skipNonRegular (name : String)
  | buildInfoFailed (name : String)
  | goVersionTooOld (name goVersion : String)
  | loadFailed (name : String)
  | loaded (name : String)
  | updateCalled (name : String)
  | updateFailed (name : String)
  | updated (name : String)
deriving DecidableEq

/-- One directory entry of the discovery scan together with the outcomes of
the external calls made for it: `entry.Info()` success, the file mode,
regular-file status, the build info read from the file (`none` models
`buildinfo.ReadFile` failing), the network outcomes consumed by artefact
construction, and the exit status of the artefact's `Update()` action. -/
structure Candidate where
  name : String
  isDir : Bool
  infoOk : Bool
  mode : Nat
  isRegular : Bool
  buildInfo : Option BuildInfo
  toolchainFetch : Except Unit String
  proxyRes : Except Unit ProxyResponse
  updateOk : Bool

/-- The body of the `for` loop of `Main` (src/unnamed/part_002, lines
148-203) for one entry: the artefact it appends to `artefacts` (if any) and
the events it logs, following the `continue` chain of the source. -/
def processCandidate (isList : Bool) (minGo : String) (c : Candidate) :
    Option ArtefactV × List Event :=
  if c.isDir then (none, [.skipDir c.name])
  else if !c.infoOk then (none, [.infoFailed c.name])
  else if !(executable c.mode) then (none, [.skipNonExecutable c.name])
  else if !c.isRegular then (none, [.skipNonRegular c.name])
  else
    match c.buildInfo with
    | none => (none, [.buildInfoFailed c.name])
    | some bi =>
      if goStringLt bi.goVersion minGo then (none, [.goVersionTooOld c.name bi.goVersion])
      else
        match NewArtefact (some bi) c.toolchainFetch c.proxyRes with
        | .error _ => (none, [.loadFailed c.name])
        | .ok a =>
          if isList || !a.needsUpdate then (some a, [.loaded c.name])
          else if c.updateOk then
            (some a, [.loaded c.name, .updateCalled c.name, .updated c.name])
          else
            (some a, [.loaded c.name, .updateCalled c.name, .updateFailed c.name])

/-- The `for` loop of `Main` over all discovered entries: the accumulated
`artefacts` slice and the concatenated event log. The loop never returns
early; every failure is logged and processing continues with the next
entry. -/
def MainLoop (isList : Bool) (minGo : String) : List Candidate → List ArtefactV × List Event
  | [] => ([], [])
  | c :: cs =>
    let r := processCandidate isList minGo c
    let rest := MainLoop isList minGo cs
    (r.1.toList ++ rest.1, r.2 ++ rest.2)

/- ===================== Concrete example inputs ===================== -/

/-- A discovered binary built with go1.17, below the default minimum. -/
def oldGoCandidate : Candidate :=
  { name := "oldtool", isDir := false, infoOk := true, mode := 0o755,
    isRegular := true,
    buildInfo := some ({ mainPath := "github.com/x/y",
                         mainVersion := "v1.0.0",
                         path := "github.com/x/y",
                         goVersion := "go1.17" } : BuildInfo),
    toolchainFetch := .error (), proxyRes := .error (), updateOk := true }

/-- A toolchain artefact one release behind the current stable version. -/
def exToolchain : GoToolchain :=
  { installedVersion := "go1.21.0", targetVersion := "go1.22.0" }

/-- An update environment in which every external effect succeeds. -/
def happyEnv : UpdEnv :=
  { installOk := true, downloadOk := true, removeOldFault := false,
    removeAliasFault := false, symlinkFault := false }

/- ===================== Helper lemmas ===================== -/

/-- Cutting at the first newline recovers the part before an appended
newline when that part has none itself. -/
theorem firstLineList_append (l r : List Char) (h : '\n' ∉ l) :
    firstLineList (l ++ '\n' :: r) = l := by
  induction l with
  | nil => simp [firstLineList]
  | cons c cs ih =>
    have hc : c ≠ '\n' := fun hc => h (hc ▸ List.mem_cons_self c cs)
    simp only [List.cons_append, firstLineList, if_neg hc]
    rw [show cs.append ('\n' :: r) = cs ++ '\n' :: r from rfl,
      ih (fun hm => h (List.mem_cons_of_mem c hm))]

/-- An uppercase ASCII letter survives the lower-then-upper round trip. -/
theorem toUpper_toLower_of_isUpper (c : Char) (h : c.isUpper = true) :
    c.toLower.toUpper = c := by
  simp only [Char.isUpper, Bool.and_eq_true, decide_eq_true_eq] at h
  obtain ⟨h1, h2⟩ := h
  have hb1 : 65 ≤ c.toNat := UInt32.le_toNat_of_le (by norm_num) h1
  have hb2 : c.toNat ≤ 90 := UInt32.toNat_le_of_le (by norm_num) h2
  have hc : Char.ofNat c.toNat = c := Char.ofNat_toNat c
  rw [← hc]
  generalize c.toNat = n at hb1 hb2
  interval_cases n <;> decide

/-- A lowercase ASCII letter is not the escape marker `!`. -/
theorem ne_bang_of_isLower (c : Char) (h : c.isLower = true) : c ≠ '!' := by
  intro hc
  subst hc
  exact absurd h (by decide)

/-- `escapeList` acts rune by rune: uppercase runes become `!` plus their
lowercase form, all other runes are copied unchanged. -/
theorem escapeList_flat (l : List Char) :
    escapeList l =
      (l.map (fun c => if c.isUpper then ['!', c.toLower] else [c])).flatten := by
  induction l with
  | nil => rfl
  | cons c cs ih =>
    cases hU : c.isUpper <;> simp [escapeList, hU, ih]

/-- Unescaping a list headed by the marker takes the next rune to uppercase. -/
theorem unescapeList_bang_cons (d : Char) (ds : List Char) :
    unescapeList ('!' :: d :: ds) = d.toUpper :: unescapeList ds := rfl

/-- Unescaping copies a rune that is not the marker. -/
theorem unescapeList_cons_of_ne (c : Char) (cs : List Char) (h : c ≠ '!') :
    unescapeList (c :: cs) = c :: unescapeList cs := by
  rw [unescapeList.eq_def]
  simp [h]

/-- On a list without uppercase letters `escapeList` is the identity. -/
theorem escapeList_of_noUpper (l : List Char)
    (h : ∀ c ∈ l, c.isUpper = false) : escapeList l = l := by
  induction l with
  | nil => rfl
  | cons c cs ih =>
    have hc : c.isUpper = false := h c (List.mem_cons_self c cs)
    simp [escapeList, hc, ih (fun d hd => h d (List.mem_cons_of_mem c hd))]

/-- Unescaping inverts escaping on lists of ASCII letters. -/
theorem unescapeList_escapeList (l : List Char)
    (h : ∀ c ∈ l, c.isAlpha = true) : unescapeList (escapeList l) = l := by
  induction l with
  | nil => rfl
  | cons c cs ih =>
    have hca : c.isAlpha = true := h c (List.mem_cons_self c cs)
    have ihcs := ih (fun d hd => h d (List.mem_cons_of_mem c hd))
    cases hU : c.isUpper with
    | true =>
      have hesc : escapeList (c :: cs) = '!' :: c.toLower :: escapeList cs := by
        simp [escapeList, hU]
      rw [hesc, unescapeList_bang_cons, toUpper_toLower_of_isUpper c hU, ihcs]
    | false =>
      have hL : c.isLower = true := by
        simp only [Char.isAlpha, Bool.or_eq_true, hU] at hca
        simpa using hca
      have hesc : escapeList (c :: cs) = c :: escapeList cs := by
        simp [escapeList, hU]
      rw [hesc, unescapeList_cons_of_ne c _ (ne_bang_of_isLower c hL), ihcs]

/-- In list mode no candidate's processing emits an `Update()` invocation. -/
theorem updateCalled_not_mem_listMode (minGo : String) (c : Candidate) (n : String) :
    Event.updateCalled n ∉ (processCandidate true minGo c).2 := by
  simp only [processCandidate]
  repeat' split
  all_goals simp_all

/-- In list mode the whole loop emits no `Update()` invocation. -/
theorem updateCalled_not_mem_MainLoop_listMode (minGo : String)
    (cs : List Candidate) (n : String) :
    Event.updateCalled n ∉ (MainLoop true minGo cs).2 := by
  induction cs with
  | nil => simp [MainLoop]
  | cons c cs ih =>
    show Event.updateCalled n ∉ (processCandidate true minGo c).2 ++ (MainLoop true minGo cs).2
    rw [List.mem_append]
    rintro (h | h)
    · exact updateCalled_not_mem_listMode minGo c n h
    · exact ih h

end GoUpdate

namespace GoUpdate

/- ===================== Claims ===================== -/

/-- C2. For every artefact of either variant, `NeedsUpdate()` returns true
iff the installed and target version strings differ under literal string
comparison. -/
theorem needsUpdate_iff_versions_differ (a : ArtefactV) :
    a.needsUpdate = true ↔ a.installedVersion ≠ a.targetVersion := by
  cases a with
  | bin b =>
    show (b.targetVersion != b.installedVersion) = true ↔ _
    exact bne_iff_ne.trans ne_comm
  | toolchain t =>
    show (t.targetVersion != t.installedVersion) = true ↔ _
    exact bne_iff_ne.trans ne_comm

/-- C5. Toolchain-artefact construction: the installed version is the base
name of the install path from the build metadata, the target version is the
first line of the fetched version text (content after the first newline is
discarded), and `InstallPath()` is the sentinel module path joined with the
target version. -/
theorem newGoToolchain_construction (bi : BuildInfo) (l rest : String)
    (hm : bi.mainPath = "golang.org/dl")
    (hl : '\n' ∉ l.data) :
    newGoToolchain bi (.ok (l ++ "\n" ++ rest)) =
      .ok { installedVersion := pathBase bi.path, targetVersion := l }
    ∧ GoToolchain.installPath { installedVersion := pathBase bi.path, targetVersion := l }
        = pathJoin goToolchainModulePath l := by
  constructor
  · have hfl : firstLine (l ++ "\n" ++ rest) = l := by
      show String.mk (firstLineList (l ++ "\n" ++ rest).data) = l
      have hd : (l ++ "\n" ++ rest).data = l.data ++ '\n' :: rest.data := by
        simp [String.data_append]
      rw [hd, firstLineList_append l.data rest.data hl]
    simp [newGoToolchain, goToolchainModulePath, hm, hfl]
  · rfl

/-- C7. Proxy-lookup resolution in `newBinary`: any non-2xx response is an
error whose included body is capped at 512 bytes, and any JSON decode
failure is an error. -/
theorem newBinary_error_handling (bi : BuildInfo) (r : ProxyResponse) :
    (r.statusCode < 200 ∨ 300 ≤ r.statusCode →
      newBinary bi (.ok r) = .error (.badStatus r.status (r.body.take 512))
      ∧ (r.body.take 512).length ≤ 512)
    ∧ (r.statusCode = 200 → r.decoded = none →
      newBinary bi (.ok r) = .error .decodeFailed) := by
  constructor
  · intro h
    have h200 : r.statusCode ≠ 200 := by omega
    constructor
    · simp only [newBinary, if_pos h200]
    · simp [List.length_take]
  · intro h200 hdec
    simp [newBinary, h200, hdec]

/-- C9. The argument vector of the external build invocation is a function
of the configured log level alone: no extra flag at the default level
(Error), an added `-v` at Info, and an added `-x` at Debug. -/
theorem installArgs_verbosity (pkg version : String) :
    installArgs defaultLogLevel pkg version = ["go", "install", pkg ++ "@" ++ version]
    ∧ installArgs slogLevelInfo pkg version =
        ["go", "install", "-v", pkg ++ "@" ++ version]
    ∧ installArgs slogLevelDebug pkg version =
        ["go", "install", "-v", "-x", pkg ++ "@" ++ version] := by
  refine ⟨?_, ?_, ?_⟩ <;> rfl

/-- C10. `NewArtefact` with nil build metadata returns an error and no
artefact: the nil case is handled before any field of the metadata is
read. -/
theorem NewArtefact_nil_is_error (tf : Except Unit String)
    (pr : Except Unit ProxyResponse) :
    NewArtefact none tf pr = Except.error ArtefactErr.nilBuildInfo := rfl

/-- C1. `(*goToolchain).Update` attempts its five steps in their strict
order (every trace is an initial segment of the five-step sequence, and an
error-free run performs all five, with step 1 installing version literal
`"latest"`); a failure at step 2 (download) returns that error with steps
3-5 unattempted and the filesystem — in particular the unversioned `go`
alias — untouched. -/
theorem goToolchain_update_protocol (t : GoToolchain) (goBin : String)
    (env : UpdEnv) (fs : Fs) :
    (∃ tl, (t.update goBin env fs).trace ++ tl = updateSteps t goBin)
    ∧ ((t.update goBin env fs).err = none →
        (t.update goBin env fs).trace = updateSteps t goBin)
    ∧ (env.installOk = true → env.downloadOk = false →
        (t.update goBin env fs).err = some UErr.downloadFailed
        ∧ (t.update goBin env fs).trace =
            [UStep.install t.installPath "latest", UStep.download t.targetVersion]
        ∧ (t.update goBin env fs).fs = fs) := by
  cases hI : env.installOk with
  | false =>
    have hres : t.update goBin env fs =
        { err := some .installFailed, fs := fs,
          trace := [UStep.install t.installPath "latest"] } := by
      simp [GoToolchain.update, hI]
    refine ⟨⟨[UStep.download t.targetVersion,
        UStep.removeFile (filepathJoin goBin t.installedVersion),
        UStep.removeFile (filepathJoin goBin "go"),
        UStep.symlink (filepathJoin goBin t.targetVersion) (filepathJoin goBin "go")],
        by rw [hres]; rfl⟩, ?_, ?_⟩
    · intro hnone; rw [hres] at hnone; cases hnone
    · intro hI2; exact absurd hI2 (by decide)
  | true =>
    cases hD : env.downloadOk with
    | false =>
      have hres : t.update goBin env fs =
          { err := some .downloadFailed, fs := fs,
            trace := [UStep.install t.installPath "latest",
              UStep.download t.targetVersion] } := by
        simp [GoToolchain.update, hI, hD]
      refine ⟨⟨[UStep.removeFile (filepathJoin goBin t.installedVersion),
          UStep.removeFile (filepathJoin goBin "go"),
          UStep.symlink (filepathJoin goBin t.targetVersion) (filepathJoin goBin "go")],
          by rw [hres]; rfl⟩, ?_, ?_⟩
      · intro hnone; rw [hres] at hnone; cases hnone
      · intro _ _; rw [hres]; exact ⟨rfl, rfl, rfl⟩
    | true =>
      rcases h3 : osRemove fs (filepathJoin goBin t.installedVersion)
          env.removeOldFault with ⟨e3, fs3⟩
      by_cases he3 : e3 = some RemoveErr.ioErr
      · have hres : t.update goBin env fs =
            { err := some (.removeFailed (filepathJoin goBin t.installedVersion)),
              fs := fs3,
              trace := [UStep.install t.installPath "latest",
                UStep.download t.targetVersion,
                UStep.removeFile (filepathJoin goBin t.installedVersion)] } := by
          simp [GoToolchain.update, hI, hD, h3, he3]
        refine ⟨⟨[UStep.removeFile (filepathJoin goBin "go"),
            UStep.symlink (filepathJoin goBin t.targetVersion) (filepathJoin goBin "go")],
            by rw [hres]; rfl⟩, ?_, ?_⟩
        · intro hnone; rw [hres] at hnone; cases hnone
        · intro _ hD2; exact absurd hD2 (by decide)
      · rcases h4 : osRemove fs3 (filepathJoin goBin "go")
            env.removeAliasFault with ⟨e4, fs4⟩
        by_cases he4 : e4 = some RemoveErr.ioErr
        · have hres : t.update goBin env fs =
              { err := some (.removeFailed (filepathJoin goBin "go")),
                fs := fs4,
                trace := [UStep.install t.installPath "latest",
                  UStep.download t.targetVersion,
                  UStep.removeFile (filepathJoin goBin t.installedVersion),
                  UStep.removeFile (filepathJoin goBin "go")] } := by
            simp [GoToolchain.update, hI, hD, h3, he3, h4, he4]
          refine ⟨⟨[UStep.symlink (filepathJoin goBin t.targetVersion)
              (filepathJoin goBin "go")], by rw [hres]; rfl⟩, ?_, ?_⟩
          · intro hnone; rw [hres] at hnone; cases hnone
          · intro _ hD2; exact absurd hD2 (by decide)
        · rcases h5 : osSymlink fs4 (filepathJoin goBin t.targetVersion)
              (filepathJoin goBin "go") env.symlinkFault with ⟨e5, fs5⟩
          cases e5 with
          | some u =>
            have hres : t.update goBin env fs =
                { err := some .symlinkFailed, fs := fs5,
                  trace := updateSteps t goBin } := by
              simp [GoToolchain.update, updateSteps, hI, hD, h3, he3, h4, he4, h5]
            refine ⟨⟨[], by rw [hres]; rfl⟩, ?_, ?_⟩
            · intro hnone; rw [hres] at hnone; cases hnone
            · intro _ hD2; exact absurd hD2 (by decide)
          | none =>
            have hres : t.update goBin env fs =
                { err := none, fs := fs5, trace := updateSteps t goBin } := by
              simp [GoToolchain.update, updateSteps, hI, hD, h3, he3, h4, he4, h5]
            refine ⟨⟨[], by rw [hres]; rfl⟩, ?_, ?_⟩
            · intro _; rw [hres]
            · intro _ hD2; exact absurd hD2 (by decide)

/-- C8. Both removal steps of the toolchain update treat a missing target
file as success: with the old versioned binary and the unversioned alias
absent (and no genuine I/O fault), the update completes all five steps
without error, ending with the new alias symlink created. -/
theorem update_remove_tolerates_absent (t : GoToolchain) (goBin : String)
    (env : UpdEnv) (fs : Fs)
    (hI : env.installOk = true) (hD : env.downloadOk = true)
    (hR3 : env.removeOldFault = false) (hR4 : env.removeAliasFault = false)
    (hS : env.symlinkFault = false)
    (hOld : fs.lookup (filepathJoin goBin t.installedVersion) = none)
    (hAlias : fs.lookup (filepathJoin goBin "go") = none) :
    (t.update goBin env fs).err = none
    ∧ (t.update goBin env fs).trace = updateSteps t goBin
    ∧ (t.update goBin env fs).fs =
        (filepathJoin goBin "go",
          FsEntry.symlink (filepathJoin goBin t.targetVersion)) :: fs := by
  have h3 : osRemove fs (filepathJoin goBin t.installedVersion) env.removeOldFault
      = (some .notExist, fs) := by
    simp [osRemove, hR3, hOld]
  have h4 : osRemove fs (filepathJoin goBin "go") env.removeAliasFault
      = (some .notExist, fs) := by
    simp [osRemove, hR4, hAlias]
  have h5 : osSymlink fs (filepathJoin goBin t.targetVersion) (filepathJoin goBin "go")
      env.symlinkFault
      = (none, (filepathJoin goBin "go",
          FsEntry.symlink (filepathJoin goBin t.targetVersion)) :: fs) := by
    simp [osSymlink, hS, hAlias]
  have hres : t.update goBin env fs =
      { err := none,
        fs := (filepathJoin goBin "go",
          FsEntry.symlink (filepathJoin goBin t.targetVersion)) :: fs,
        trace := updateSteps t goBin } := by
    simp [GoToolchain.update, updateSteps, hI, hD, h3, h4, h5]
  rw [hres]
  exact ⟨rfl, rfl, rfl⟩

/-- C4. A candidate whose embedded toolchain version is below the configured
minimum is rejected before artefact construction (no artefact results, only
the rejection is logged), and the rejection is fatal only for that
candidate: the loop's result for the remaining candidates is unchanged. -/
theorem goVersion_minimum_rejection (isList : Bool) (minGo : String)
    (c : Candidate) (cs : List Candidate) (bi : BuildInfo)
    (hd : c.isDir = false) (hio : c.infoOk = true)
    (hex : executable c.mode = true) (hrg : c.isRegular = true)
    (hbi : c.buildInfo = some bi)
    (hver : goStringLt bi.goVersion minGo = true) :
    processCandidate isList minGo c =
      (none, [Event.goVersionTooOld c.name bi.goVersion])
    ∧ (MainLoop isList minGo (c :: cs)).1 = (MainLoop isList minGo cs).1
    ∧ (MainLoop isList minGo (c :: cs)).2 =
        Event.goVersionTooOld c.name bi.goVersion :: (MainLoop isList minGo cs).2 := by
  have h1 : processCandidate isList minGo c =
      (none, [Event.goVersionTooOld c.name bi.goVersion]) := by
    simp [processCandidate, hd, hio, hex, hrg, hbi, hver]
  refine ⟨h1, ?_, ?_⟩
  · show (processCandidate isList minGo c).1.toList ++ (MainLoop isList minGo cs).1 = _
    rw [h1]
    rfl
  · show (processCandidate isList minGo c).2 ++ (MainLoop isList minGo cs).2 = _
    rw [h1]
    rfl

/-- C3. In one orchestrator run, an `Update()` invocation is emitted for a
candidate exactly when run mode is update (not list), the candidate's
artefact was constructed, and `NeedsUpdate()` is true; in list mode no
`Update()` is ever invoked; the loop processes every remaining candidate
whatever one candidate's events were, and a failing `Update()` is logged as
a per-candidate failure event. -/
theorem Main_update_dispatch (isList : Bool) (minGo : String)
    (c : Candidate) (cs : List Candidate) :
    (MainLoop isList minGo (c :: cs)).2 =
        (processCandidate isList minGo c).2 ++ (MainLoop isList minGo cs).2
    ∧ (Event.updateCalled c.name ∈ (processCandidate isList minGo c).2 ↔
        isList = false ∧ ∃ a, (processCandidate isList minGo c).1 = some a
          ∧ a.needsUpdate = true)
    ∧ (isList = true → ∀ n,
        Event.updateCalled n ∉ (MainLoop isList minGo (c :: cs)).2)
    ∧ (∀ a, isList = false → (processCandidate isList minGo c).1 = some a →
        a.needsUpdate = true → c.updateOk = false →
        Event.updateFailed c.name ∈ (processCandidate isList minGo c).2) := by
  refine ⟨rfl, ?_, ?_, ?_⟩
  · cases isList with
    | true =>
      simp only [processCandidate]
      repeat' split
      all_goals simp_all
    | false =>
      simp only [processCandidate]
      repeat' split
      all_goals simp_all
  · intro hl n
    subst hl
    exact updateCalled_not_mem_MainLoop_listMode minGo (c :: cs) n
  · intro a hl hfst hnu huo
    subst hl
    simp only [processCandidate] at hfst ⊢
    repeat' split at hfst <;> repeat' split
    all_goals simp_all

/-- C6. Module-name escaping replaces every uppercase letter with `!`
followed by its lowercase form and leaves all other runes unchanged; on a
string without uppercase letters escaping is idempotent; and on a module
path of ASCII letters only, unescaping inverts escaping. -/
theorem escapeModuleName_algebra (s : String) :
    escapeModuleName s =
      String.mk ((s.data.map
        (fun c => if c.isUpper then ['!', c.toLower] else [c])).flatten)
    ∧ ((∀ c ∈ s.data, c.isUpper = false) →
        escapeModuleName (escapeModuleName s) = escapeModuleName s)
    ∧ ((∀ c ∈ s.data, c.isAlpha = true) →
        unescapeModuleName (escapeModuleName s) = s) := by
  refine ⟨?_, ?_, ?_⟩
  · show String.mk (escapeList s.data) = _
    rw [escapeList_flat]
  · intro h
    show String.mk (escapeList (escapeModuleName s).data) = _
    have hdata : (escapeModuleName s).data = escapeList s.data := rfl
    rw [hdata, escapeList_of_noUpper s.data h]
    rfl
  · intro h
    show String.mk (unescapeList (escapeModuleName s).data) = s
    have hdata : (escapeModuleName s).data = escapeList s.data := rfl
    rw [hdata, unescapeList_escapeList s.data h]

/-- Witness for C5 at scenario C of the spec: install-path basename
`go1.21.0`, version endpoint body `go1.22.0` plus trailing release notes. -/
theorem newGoToolchain_construction_witness :
    newGoToolchain
        { mainPath := "golang.org/dl", mainVersion := "go1.21.0",
          path := "/root/go/bin/go1.21.0", goVersion := "go1.22.1" }
        (.ok ("go1.22.0" ++ "\n" ++ "release notes"))
      = .ok { installedVersion := pathBase "/root/go/bin/go1.21.0",
              targetVersion := "go1.22.0" }
    ∧ GoToolchain.installPath
        { installedVersion := pathBase "/root/go/bin/go1.21.0",
          targetVersion := "go1.22.0" }
        = pathJoin goToolchainModulePath "go1.22.0"
    ∧ pathBase "/root/go/bin/go1.21.0" = "go1.21.0"
    ∧ pathJoin goToolchainModulePath "go1.22.0" = "golang.org/dl/go1.22.0" := by
  have h := newGoToolchain_construction
    { mainPath := "golang.org/dl", mainVersion := "go1.21.0",
      path := "/root/go/bin/go1.21.0", goVersion := "go1.22.1" }
    "go1.22.0" "release notes" rfl (by decide)
  exact ⟨h.1, h.2, by decide, by decide⟩

/-- Witness for C4: a go1.17 binary against minimum go1.18 is rejected with
only its rejection logged, and an empty remainder is processed unchanged. -/
theorem goVersion_minimum_rejection_witness :
    processCandidate false "go1.18" oldGoCandidate =
      (none, [Event.goVersionTooOld "oldtool" "go1.17"])
    ∧ (MainLoop false "go1.18" [oldGoCandidate]).1 = (MainLoop false "go1.18" []).1
    ∧ (MainLoop false "go1.18" [oldGoCandidate]).2 =
        Event.goVersionTooOld "oldtool" "go1.17" :: (MainLoop false "go1.18" []).2 :=
  goVersion_minimum_rejection false "go1.18" oldGoCandidate []
    { mainPath := "github.com/x/y", mainVersion := "v1.0.0",
      path := "github.com/x/y", goVersion := "go1.17" }
    rfl rfl (by decide) rfl rfl (by decide)

/-- Witness for C8: with neither the old binary nor the alias present, the
update performs all five steps, errors on neither removal, and ends with
the new alias in place. -/
theorem update_remove_tolerates_absent_witness :
    (exToolchain.update "/gobin" happyEnv []).err = none
    ∧ (exToolchain.update "/gobin" happyEnv []).trace = updateSteps exToolchain "/gobin"
    ∧ (exToolchain.update "/gobin" happyEnv []).fs =
        (filepathJoin "/gobin" "go",
          FsEntry.symlink (filepathJoin "/gobin" exToolchain.targetVersion)) :: []
    ∧ filepathJoin "/gobin" "go" = "/gobin/go"
    ∧ filepathJoin "/gobin" exToolchain.targetVersion = "/gobin/go1.22.0" := by
  have h := update_remove_tolerates_absent exToolchain "/gobin" happyEnv []
    rfl rfl rfl rfl rfl rfl rfl
  exact ⟨h.1, h.2.1, h.2.2, by decide, by decide⟩

end GoUpdate
